import Mathlib

/-!
# Verification of the GIF-bot scheduling and challenge subsystem

Shallow embedding of the challenge engine and scheduled-post engine of
`bot.py` (class `GIFBot`) and `enhanced_features.py`.  Python dicts are
modelled as insertion-ordered association lists with overwrite-on-assign,
timers (`context.job_queue.run_once`) as a list of pending `Job` records,
and the chat transport as a list of emitted `Effect`s.  Wall-clock time is
modelled at second granularity as a `Nat` (seconds since an arbitrary
epoch); `datetime.now()` is a parameter `now` of each operation.
External capabilities (Tenor search, `get_chat_member`) are parameters.

The `/schedule` command is handled by `GIFBot.schedule_gif` (registered
before the `EnhancedFeatures` handler for the same command, so the
python-telegram-bot dispatcher routes `/schedule` to it); hence the
regex-validated variant in `bot.py` is the one embedded here.
-/

namespace GifBot

/-- A scalar value stored in a job's `data` dict.  Python compares an
`int` and a `str` as unequal (`42 == "42"` is `False`), which the
embedding must preserve. -/
inductive PyScalar where
  | int (n : Int)
  | str (s : String)
deriving DecidableEq, Repr

/-- Python `==` on job-data scalars: cross-type comparison is `False`. -/
def pyEq : PyScalar → PyScalar → Bool
  | .int a, .int b => a == b
  | .str a, .str b => a == b
  | _, _ => false

/-- Assignment `d[k] = v` on an insertion-ordered dict modelled as an
association list: overwrite the binding if the key is present, else
append. -/
def dictSet (k : String) (v : α) : List (String × α) → List (String × α)
  | [] => [(k, v)]
  | (k', v') :: rest =>
      if k' = k then (k, v) :: rest else (k', v') :: dictSet k v rest

/-- Lookup `d.get(k)` / `k in d`. -/
def dictGet (k : String) : List (String × α) → Option α
  | [] => none
  | (k', v') :: rest => if k' = k then some v' else dictGet k rest

/-- Deletion `del d[k]` (removes the first binding of `k`). -/
def dictDel (k : String) : List (String × α) → List (String × α)
  | [] => []
  | (k', v') :: rest =>
      if k' = k then rest else (k', v') :: dictDel k rest

/-- Number of bindings of a key (a real dict always has 0 or 1; the
model proves that count stays ≤ 1 under the engine's operations). -/
def countKey (k : String) (l : List (String × α)) : Nat :=
  (l.filter (fun p => p.1 = k)).length

/-- One challenge record, as built by `GIFBot.start_challenge`:
`{"theme": …, "creator": …, "participants": {}, "end_time": now + seconds}`.
`participants` maps `str(user_id)` to the submitted animation file id. -/
structure ChallengeRec where
  theme : String
  creator : Int
  participants : List (String × String)
  endTime : Nat
deriving DecidableEq, Repr

/-- Per-group settings dict (`passive_mode`, `max_gifs`, `safe_mode`). -/
structure GroupSetting where
  passiveMode : Bool
  maxGifs : Nat
  safeMode : Bool
deriving DecidableEq, Repr

/-- A pending one-shot timer registered with `context.job_queue.run_once`:
the callback name, the delay in seconds, the `chat_id` keyword argument
and the `data` dict. -/
structure Job where
  callback : String
  delay : Nat
  chatId : Int
  data : List (String × PyScalar)
deriving DecidableEq, Repr

/-- An observable side effect on the chat transport. -/
inductive Effect where
  | reply (text : String)
  | sendMessage (chatId : PyScalar) (text : String)
  | sendAnimation (chatId : PyScalar) (animation : String) (caption : String)
deriving DecidableEq, Repr

/-- The bot's mutable state relevant to the two engines. -/
structure BotState where
  userStats : List (String × Int)
  groupSettings : List (String × GroupSetting)
  challenges : List (String × ChallengeRec)
  jobs : List Job
deriving DecidableEq, Repr

def BotState.empty : BotState := ⟨[], [], [], []⟩

/-! ## Small string / number helpers mirroring Python builtins -/

/-- `str.isdigit()` for ASCII strings: non-empty and all decimal digits. -/
def isDigitStr (s : String) : Bool :=
  !s.data.isEmpty && s.data.all Char.isDigit

/-- Decimal value of a digit list (`int(s)` for a digit string). -/
def digitsVal (cs : List Char) : Nat :=
  cs.foldl (fun a c => a * 10 + (c.toNat - 48)) 0

/-- Python `int(s)` restricted to optionally-signed ASCII digit strings
(whitespace-trimming and other `int()` liberality is out of the claims'
scope); `none` models a raised `ValueError`. -/
def pyIntOf (s : String) : Option Int :=
  match s.data with
  | '-' :: rest =>
      if rest.isEmpty then none
      else if rest.all Char.isDigit then some (-(digitsVal rest : Int)) else none
  | cs =>
      if cs.isEmpty then none
      else if cs.all Char.isDigit then some (digitsVal cs : Int) else none

/-- Two-digit zero-padded rendering used by `strftime`. -/
def pad2 (n : Nat) : String :=
  if n < 10 then "0" ++ toString n else toString n

/-- `strftime('%H:%M:%S')` of a timestamp (seconds since epoch). -/
def fmtHMS (t : Nat) : String :=
  pad2 (t % 86400 / 3600) ++ ":" ++ pad2 (t % 3600 / 60) ++ ":" ++ pad2 (t % 60)

/-! ## Challenge engine (`GIFBot.start_challenge`, `end_challenge`,
`cancel_challenge`, `submit_gif`) -/

/-- Duration selection in `start_challenge`: default 300 s; when a second
argument is present and `isdigit()`, its value clamped to
`max(30, min(seconds, 24 * 3600))`. -/
def challengeDuration (args : List String) : Nat :=
  match args with
  | _ :: s :: _ => if isDigitStr s then max 30 (min (digitsVal s.data) (24 * 3600)) else 300
  | _ => 300

/-- Announcement text of `start_challenge` (theme, `divmod`-formatted
duration, `strftime('%H:%M:%S')` of the end time). -/
def startChallengeReply (theme : String) (seconds endTime : Nat) : String :=
  let hours := seconds / 3600
  let remainder := seconds % 3600
  let minutes := remainder / 60
  let secs := remainder % 60
  let timeStr :=
    if hours ≠ 0 then toString hours ++ "h " ++ toString minutes ++ "m " ++ toString secs ++ "s"
    else toString minutes ++ "m " ++ toString secs ++ "s"
  "🏆 NEW GIF CHALLENGE!\n\nTheme: " ++ theme ++ "\nDuration: " ++ timeStr ++
    "\nSubmit your GIFs with /submitgif\nEnds at: " ++ fmtHMS endTime

/-- `GIFBot.start_challenge`: with no arguments, a usage reply and no
state change; otherwise creates/overwrites the chat's challenge record
(`challenges[str(chat_id)]`), and arms a one-shot `end_challenge` timer
for the chosen duration with `data={"chat_id": chat_id}` (the chat id as
an `int`). -/
def startChallenge (now : Nat) (chat user : Int) (args : List String) (st : BotState) :
    BotState × List Effect :=
  let react : Effect := .reply "🏆"
  match args with
  | [] => (st, [react,
      .reply "Usage: /challenge [theme] [seconds]\nExample: /challenge Summer 300 (5 minutes)"])
  | theme :: _ =>
    let seconds := challengeDuration args
    let cid := toString chat
    let newRec : ChallengeRec := ⟨theme, user, [], now + seconds⟩
    ({ st with
        challenges := dictSet cid newRec st.challenges,
        jobs := st.jobs ++ [⟨"end_challenge", seconds, chat, [("chat_id", .int chat)]⟩] },
     [react, .reply (startChallengeReply theme seconds (now + seconds))])

def noSubsMsg (theme : String) : String :=
  "🏆 Challenge '" ++ theme ++ "' ended with no submissions 😢"

def winnerMsg (theme name : String) : String :=
  "🏆 Challenge '" ++ theme ++ "' ended!\n\n🎉 Winner: " ++ name ++ "!\nThanks to all participants!"

def winnerCaption (name : String) : String :=
  "🏆 Winning GIF by " ++ name

/-- `random.choice(list(challenge["participants"].keys()))`, with the
arbitrary index `pick` standing for the random draw. -/
def winnerIdOf (pick : Nat) (ps : List (String × String)) : String :=
  (ps.map Prod.fst).getD (pick % (ps.map Prod.fst).length) ""

/-- Winner display-name resolution: `get_chat_member(chat, int(w))`
inside a `try`, falling back to `"User {w}"` on any failure. -/
def winnerNameOf (nameOf : Int → Option String) (w : String) : String :=
  match pyIntOf w with
  | some uid =>
    match nameOf uid with
    | some nm => nm
    | none => "User " ++ w
  | none => "User " ++ w

/-- `GIFBot.end_challenge`, the timer-fired resolver.  `jobChatId` is
`job.chat_id`; the record is looked up under `str(job.chat_id)`.  If the
chat has no record, nothing happens.  With no participants, a
"no submissions" message is sent and the record deleted.  Otherwise a
winner is drawn from the participant keys and announced together with
the winning animation, and the record is deleted. -/
def endChallenge (nameOf : Int → Option String) (pick : Nat) (jobChatId : Int) (st : BotState) :
    BotState × List Effect :=
  let cid := toString jobChatId
  match dictGet cid st.challenges with
  | none => (st, [])
  | some ch =>
    if ch.participants.isEmpty then
      ({ st with challenges := dictDel cid st.challenges },
       [.sendMessage (.str cid) (noSubsMsg ch.theme)])
    else
      let winnerId := winnerIdOf pick ch.participants
      let winnerGif := (dictGet winnerId ch.participants).getD ""
      let winnerName := winnerNameOf nameOf winnerId
      ({ st with challenges := dictDel cid st.challenges },
       [.sendMessage (.str cid) (winnerMsg ch.theme winnerName),
        .sendAnimation (.str cid) winnerGif (winnerCaption winnerName)])

/-- The job-removal test of `cancel_challenge`:
`job.data and job.data.get("chat_id") == chat_id`, where `chat_id` here
is the *string* `str(update.effective_chat.id)` while the stored value is
the *int* chat id — `pyEq` reproduces Python's `int == str` giving
`False`. -/
def jobMatchesCancel (cid : String) (j : Job) : Bool :=
  !j.data.isEmpty &&
    (match dictGet "chat_id" j.data with
     | some v => pyEq v (.str cid)
     | none => false)

/-- `GIFBot.cancel_challenge`: no record → "no active challenge" reply;
requester neither creator nor admin (per the `is_admin` capability
result) → forbidden reply; otherwise removes every job whose data
matches `jobMatchesCancel`, deletes the record and confirms. -/
def cancelChallenge (isAdmin : Bool) (chat user : Int) (st : BotState) :
    BotState × List Effect :=
  let react : Effect := .reply "❌"
  let cid := toString chat
  match dictGet cid st.challenges with
  | none => (st, [react, .reply "No active challenge to cancel!"])
  | some ch =>
    if user != ch.creator && !isAdmin then
      (st, [react, .reply "Only the challenge creator or admin can cancel!"])
    else
      ({ st with
          jobs := st.jobs.filter (fun j => !jobMatchesCancel cid j),
          challenges := dictDel cid st.challenges },
       [react, .reply "✅ Challenge canceled!"])

/-- `GIFBot.submit_gif`: `animFileId` is the animation `file_id` of the
replied-to message (`none` when the command does not reply to a GIF).
Records/overwrites the participant's single submission under
`str(user_id)`. -/
def submitGif (chat user : Int) (animFileId : Option String) (st : BotState) :
    BotState × List Effect :=
  let react : Effect := .reply "📤"
  let cid := toString chat
  match dictGet cid st.challenges with
  | none => (st, [react, .reply "No active challenge! Start one with /challenge"])
  | some ch =>
    match animFileId with
    | none => (st, [react, .reply "Reply to a GIF with /submitgif to enter the challenge!"])
    | some fid =>
      let ch' := { ch with participants := dictSet (toString user) fid ch.participants }
      ({ st with challenges := dictSet cid ch' st.challenges },
       [react, .reply ("🎉 Submission received for '" ++ ch.theme ++ "' challenge!")])

/-! ## Scheduled-post engine (`GIFBot.schedule_gif`, `send_scheduled_gif`) -/

def isDig05 (c : Char) : Bool :=
  c == '0' || c == '1' || c == '2' || c == '3' || c == '4' || c == '5'

/-- Two-digit hour alternative of the regex: `[0-1][0-9]|2[0-3]`. -/
def hour2Ok (h1 h2 : Char) : Bool :=
  ((h1 == '0' || h1 == '1') && h2.isDigit) ||
    (h1 == '2' && (h2 == '0' || h2 == '1' || h2 == '2' || h2 == '3'))

/-- Minute part of the regex: `[0-5][0-9]`. -/
def minuteOk (m1 m2 : Char) : Bool :=
  isDig05 m1 && m2.isDigit

/-- `re.match(r"^([0-1]?[0-9]|2[0-3]):[0-5][0-9]$", s)` on a whole
string (the `$`-before-trailing-newline case is handled separately in
`reMatchTime`): hour is one digit (`[0-9]`) or two digits
(`[0-1][0-9]|2[0-3]`), then a colon, then minute `[0-5][0-9]`. -/
def hhmmCore : List Char → Bool
  | [h1, c, m1, m2] => h1.isDigit && (c == ':') && minuteOk m1 m2
  | [h1, h2, c, m1, m2] => hour2Ok h1 h2 && (c == ':') && minuteOk m1 m2
  | _ => false

/-- Full Python semantics of the anchored regex: `$` also matches just
before one trailing newline. -/
def reMatchTime (s : String) : Bool :=
  hhmmCore s.data ||
    (match s.data.getLast? with
     | some c => c == '\n' && hhmmCore s.data.dropLast
     | none => false)

/-- `datetime.strptime(s, "%H:%M")`, returning the parsed
(hour, minute) or `none` for a raised `ValueError`.  `%H` and `%M` each
accept one or two digits; ranges are 0–23 and 0–59. -/
def parseHM (s : String) : Option (Nat × Nat) :=
  let check (hs ms : List Char) : Option (Nat × Nat) :=
    if hs.all Char.isDigit && ms.all Char.isDigit then
      let h := digitsVal hs
      let m := digitsVal ms
      if h ≤ 23 && m ≤ 59 then some (h, m) else none
    else none
  match s.data with
  | [h1, ':', m1] => check [h1] [m1]
  | [h1, ':', m1, m2] => check [h1] [m1, m2]
  | [h1, h2, ':', m1] => check [h1, h2] [m1]
  | [h1, h2, ':', m1, m2] => check [h1, h2] [m1, m2]
  | _ => none

/-- Fire-time computation of `schedule_gif`: `scheduled_time` is today's
date with the requested hour/minute (seconds zeroed); if it is already
in the past, one day is added. -/
def computeFire (now h m : Nat) : Nat :=
  if now / 86400 * 86400 + h * 3600 + m * 60 < now
  then now / 86400 * 86400 + h * 3600 + m * 60 + 86400
  else now / 86400 * 86400 + h * 3600 + m * 60

/-- `GIFBot.schedule_gif`: fewer than two arguments → usage reply; time
string failing the regex → validation-error reply, nothing armed;
otherwise parses the time, computes the fire time (today or tomorrow)
and arms a one-shot `send_scheduled_gif` job whose data stores the query
string and the requester id (`strptime` failure — reachable only via the
`$`/newline quirk — lands in the `except` branch). -/
def scheduleGif (now : Nat) (chat user : Int) (args : List String) (st : BotState) :
    BotState × List Effect :=
  let react : Effect := .reply "⏰"
  if args.length < 2 then
    (st, [react, .reply ("Usage: /schedule [HH:MM] [search query]\n" ++
      "Example: /schedule 15:30 birthday party\n\nTimes are in your current timezone")])
  else
    let timeStr := args.headD ""
    let query := String.intercalate " " args.tail
    if !reMatchTime timeStr then
      (st, [react, .reply "Invalid time format! Use HH:MM (24-hour format)\nExample: 14:30"])
    else
      match parseHM timeStr with
      | none => (st, [react, .reply "Couldn't schedule that. Try again?"])
      | some (h, m) =>
        let fire := computeFire now h m
        let delay := fire - now
        ({ st with jobs := st.jobs ++
            [⟨"send_scheduled_gif", delay, chat,
              [("query", .str query), ("user_id", .int user)]⟩] },
         [react, .reply ("⏰ Scheduled! I'll send a GIF for '" ++ query ++ "' at " ++
            pad2 h ++ ":" ++ pad2 m ++ "!")])

/-- `self.group_settings.get(str(chat_id), {}).get('safe_mode', True)`. -/
def safeModeOf (st : BotState) (chatId : Int) : Bool :=
  match dictGet (toString chatId) st.groupSettings with
  | some g => g.safeMode
  | none => true

/-- `GIFBot.send_scheduled_gif`, the timer-fired callback: reads the
stored query from the job data and resolves it against the search
capability `search` *as it is at fire time* (the job stores only the
query string, never results; `schedule_gif` does not consult the search
capability at all).  Empty result list → "couldn't find" notice and no
stats change; otherwise the first result is sent as an animation and the
requester's usage counter is incremented.  A malformed job data dict
raises inside the `try` and is swallowed. -/
def sendScheduledGif (search : String → Bool → List String) (job : Job) (st : BotState) :
    BotState × List Effect :=
  match dictGet "query" job.data, dictGet "user_id" job.data with
  | some (.str query), some userVal =>
    match search query (safeModeOf st job.chatId) with
    | g :: _ =>
      let userKey := match userVal with
        | .int u => toString u
        | .str s => s
      ({ st with userStats :=
          dictSet userKey ((dictGet userKey st.userStats).getD 0 + 1) st.userStats },
       [.sendAnimation (.int job.chatId) g ("⏰ Scheduled GIF for '" ++ query ++ "'")])
    | [] => (st, [.sendMessage (.int job.chatId) ("⚠️ Couldn't find a GIF for '" ++ query ++ "'.")])
  | _, _ => (st, [])

/-! ## Persistence (`GIFBot.save_data` / `load_data`)

`save_data` builds a Python dict and hands it to `json.dump`.  `PyVal`
models the Python values that can appear in it; crucially, a `datetime`
(which `start_challenge` stores under `"end_time"`) is **not** JSON
serializable — `json.dump` raises `TypeError` on it, which `save_data`
catches and merely logs. -/

inductive PyVal where
  | str (s : String)
  | int (n : Int)
  | bool (b : Bool)
  | datetime (t : Nat)
  | list (xs : List PyVal)
  | dict (xs : List (String × PyVal))
deriving Repr

mutual

/-- Whether `json.dump` accepts the value (no `TypeError`). -/
def jsonable : PyVal → Bool
  | .str _ => true
  | .int _ => true
  | .bool _ => true
  | .datetime _ => false
  | .list xs => jsonableList xs
  | .dict xs => jsonableDict xs

def jsonableList : List PyVal → Bool
  | [] => true
  | x :: xs => jsonable x && jsonableList xs

def jsonableDict : List (String × PyVal) → Bool
  | [] => true
  | (_, v) :: xs => jsonable v && jsonableDict xs

end

/-- A challenge record as placed into the snapshot by `save_data`
(via `start_challenge`'s construction): the `end_time` field is a raw
`datetime` object. -/
def challengeToPy (c : ChallengeRec) : PyVal :=
  .dict [("theme", .str c.theme), ("creator", .int c.creator),
         ("participants", .dict (c.participants.map fun p => (p.1, .str p.2))),
         ("end_time", .datetime c.endTime)]

/-- The dict `save_data` passes to `json.dump` (fields outside the
engines' state — favorites, collections, gif labels — are represented
as empty dicts, which changes nothing about serializability). -/
def saveDataValue (st : BotState) : PyVal :=
  .dict [("user_stats", .dict (st.userStats.map fun p => (p.1, .int p.2))),
         ("group_settings", .dict (st.groupSettings.map fun p =>
            (p.1, .dict [("passive_mode", .bool p.2.passiveMode),
                         ("max_gifs", .int (p.2.maxGifs : Int)),
                         ("safe_mode", .bool p.2.safeMode)]))),
         ("favorites", .dict []),
         ("collections", .dict []),
         ("gif_labels", .dict []),
         ("challenges", .dict (st.challenges.map fun p => (p.1, challengeToPy p.2)))]

/-- `save_data`: the snapshot value when `json.dump` succeeds, `none`
when it raises (the exception is caught and logged, no valid snapshot is
written).  A JSON text round-trip of a `jsonable` value is the identity
on this representation, so `load_data` after a successful save reads
back exactly this value. -/
def saveData (st : BotState) : Option PyVal :=
  if jsonable (saveDataValue st) then some (saveDataValue st) else none

/-! ## Concrete scenarios used to evaluate the engines at fixed inputs -/

/-- Chat 42: user 7 starts challenge "Summer" (default duration) at t = 0. -/
def cancelScenario : BotState := (startChallenge 0 42 7 ["Summer"] BotState.empty).1

/-- …then user 7 (the creator, not an admin) cancels it. -/
def cancelScenarioAfter : BotState × List Effect := cancelChallenge false 42 7 cancelScenario

/-- Chat 1: user 10 starts challenge "A" at t = 0, then user 11 starts
challenge "B" at t = 50 while "A" is still active. -/
def overwriteScenario : BotState :=
  (startChallenge 50 1 11 ["B"] (startChallenge 0 1 10 ["A"] BotState.empty).1).1

/-- …then challenge "A"'s still-armed timer fires (at t = 300). -/
def overwriteScenarioFire : BotState × List Effect :=
  endChallenge (fun _ => none) 0 1 overwriteScenario

/-! ## Spec-side predicates -/

/-- The spec's notion of a well-formed 24-hour time string: a digit hour
part of one or two digits denoting 0–23, a colon, and a two-digit
minute part denoting 0–59.  Written from the spec's wording ("must
match 24-hour `HH:MM`, hours 0–23, minutes 0–59"); `hhmmCore`, taken
from the source regex, is proved to accept only such strings. -/
def SpecHHMM (s : String) : Prop :=
  ∃ hs ms, s.data = hs ++ ':' :: ms ∧ hs ≠ [] ∧ hs.length ≤ 2 ∧
    hs.all Char.isDigit = true ∧ ms.length = 2 ∧ ms.all Char.isDigit = true ∧
    digitsVal hs ≤ 23 ∧ digitsVal ms ≤ 59

/-- The per-chat uniqueness invariant: no chat key is bound to more than
one challenge record. -/
def AtMostOne (st : BotState) : Prop :=
  ∀ c, countKey c st.challenges ≤ 1

/-! ## Helper lemmas about the dict model -/

theorem dictGet_dictSet_self (k : String) (v : α) (l : List (String × α)) :
    dictGet k (dictSet k v l) = some v := by
  induction l with
  | nil => simp [dictSet, dictGet]
  | cons p rest ih =>
    obtain ⟨k', v'⟩ := p
    by_cases h : k' = k
    · simp [dictSet, dictGet, h]
    · simp [dictSet, dictGet, h, ih]

theorem mem_of_dictGet {k : String} {v : α} {l : List (String × α)}
    (h : dictGet k l = some v) : (k, v) ∈ l := by
  induction l with
  | nil => simp [dictGet] at h
  | cons p rest ih =>
    obtain ⟨k', v'⟩ := p
    by_cases hk : k' = k
    · subst hk
      simp [dictGet] at h
      simp [h]
    · simp [dictGet, hk] at h
      exact List.mem_cons_of_mem _ (ih h)

theorem dictGet_isSome_of_mem_keys {k : String} {l : List (String × α)}
    (h : k ∈ l.map Prod.fst) : ∃ v, dictGet k l = some v := by
  induction l with
  | nil => simp at h
  | cons p rest ih =>
    obtain ⟨k', v'⟩ := p
    by_cases hk : k' = k
    · exact ⟨v', by simp [dictGet, hk]⟩
    · have h' : k ∈ rest.map Prod.fst := by
        rcases List.mem_map.mp h with ⟨q, hq, hfst⟩
        rcases List.mem_cons.mp hq with rfl | hq'
        · exact absurd hfst hk
        · exact List.mem_map.mpr ⟨q, hq', hfst⟩
      obtain ⟨v, hv⟩ := ih h'
      exact ⟨v, by simpa [dictGet, hk] using hv⟩

theorem getD_mod_mem {xs : List α} (n : Nat) (d : α) (h : xs ≠ []) :
    xs.getD (n % xs.length) d ∈ xs := by
  have hl : n % xs.length < xs.length := Nat.mod_lt _ (List.length_pos.mpr h)
  rw [List.getD_eq_getElem xs d hl]
  exact List.getElem_mem hl

theorem mem_of_getLast? {l : List α} {c : α} (h : l.getLast? = some c) : c ∈ l := by
  obtain ⟨hne, h2⟩ := List.mem_getLast?_eq_getLast (l := l) (x := c) (by simp [h])
  rw [h2]
  exact List.getLast_mem hne

theorem countKey_cons (c k : String) (v : α) (l : List (String × α)) :
    countKey c ((k, v) :: l) = (if k = c then 1 else 0) + countKey c l := by
  simp only [countKey, List.filter_cons]
  split
  · next hb =>
    have hkc : k = c := by simpa using hb
    simp [hkc]
    omega
  · next hb =>
    have hkc : ¬k = c := by simpa using hb
    simp [hkc]

theorem countKey_dictSet_self (k : String) (v : α) (l : List (String × α)) :
    countKey k (dictSet k v l) = max (countKey k l) 1 := by
  induction l with
  | nil => simp [dictSet, countKey_cons, countKey]
  | cons p rest ih =>
    obtain ⟨k', v'⟩ := p
    by_cases hk : k' = k
    · subst hk
      simp [dictSet, countKey_cons]
    · simp [dictSet, hk, countKey_cons, ih]

theorem countKey_dictSet_other {c k : String} (h : ¬c = k) (v : α) (l : List (String × α)) :
    countKey c (dictSet k v l) = countKey c l := by
  induction l with
  | nil =>
    have h' : ¬k = c := fun hh => h hh.symm
    simp [dictSet, countKey_cons, countKey, h']
  | cons p rest ih =>
    obtain ⟨k', v'⟩ := p
    by_cases hk : k' = k
    · subst hk
      have h' : ¬k' = c := fun hh => h hh.symm
      simp [dictSet, countKey_cons, h']
    · simp [dictSet, hk, countKey_cons, ih]

theorem countKey_dictDel_le (c k : String) (l : List (String × α)) :
    countKey c (dictDel k l) ≤ countKey c l := by
  induction l with
  | nil => simp [dictDel]
  | cons p rest ih =>
    obtain ⟨k', v'⟩ := p
    by_cases hk : k' = k
    · simp [dictDel, hk, countKey_cons]
    · simp [dictDel, hk, countKey_cons]
      omega

theorem dictGet_none_of_countKey_zero {c : String} {l : List (String × α)}
    (h : countKey c l = 0) : dictGet c l = none := by
  induction l with
  | nil => simp [dictGet]
  | cons p rest ih =>
    obtain ⟨k', v'⟩ := p
    rw [countKey_cons] at h
    by_cases hk : k' = c
    · simp [hk] at h
    · simp [hk] at h
      simp [dictGet, hk, ih h]

theorem dictGet_dictDel_self {c : String} {l : List (String × α)}
    (h : countKey c l ≤ 1) : dictGet c (dictDel c l) = none := by
  induction l with
  | nil => simp [dictDel, dictGet]
  | cons p rest ih =>
    obtain ⟨k', v'⟩ := p
    rw [countKey_cons] at h
    by_cases hk : k' = c
    · simp [hk] at h
      simp [dictDel, hk]
      exact dictGet_none_of_countKey_zero (by omega)
    · simp [hk] at h
      simp [dictDel, hk, dictGet, ih h]

theorem jsonableDict_mem {l : List (String × PyVal)} {k : String} {v : PyVal}
    (hl : jsonableDict l = true) (hm : (k, v) ∈ l) : jsonable v = true := by
  induction l with
  | nil => simp at hm
  | cons p rest ih =>
    obtain ⟨k', v'⟩ := p
    rw [jsonableDict] at hl
    simp only [Bool.and_eq_true] at hl
    rcases List.mem_cons.mp hm with h | h
    · cases h
      exact hl.1
    · exact ih hl.2 h

/-! ## Character facts for the time regex -/

theorem isDigit_bounds {c : Char} (h : c.isDigit = true) :
    48 ≤ c.toNat ∧ c.toNat ≤ 57 := by
  simpa [Char.isDigit] using h

theorem isDig05_bounds {c : Char} (h : isDig05 c = true) :
    48 ≤ c.toNat ∧ c.toNat ≤ 53 := by
  simp [isDig05] at h
  rcases h with ((((h | h) | h) | h) | h) | h <;> subst h <;> decide

/-- Every string accepted by the source regex is a well-formed 24-hour
time in the spec's sense. -/
theorem specHHMM_of_hhmmCore {s : String} (h : hhmmCore s.data = true) : SpecHHMM s := by
  rcases hcs : s.data with _ | ⟨c1, _ | ⟨c2, _ | ⟨c3, _ | ⟨c4, _ | ⟨c5, rest⟩⟩⟩⟩⟩ <;>
    rw [hcs] at h
  · simp [hhmmCore] at h
  · simp [hhmmCore] at h
  · simp [hhmmCore] at h
  · simp [hhmmCore] at h
  · -- four characters: `H:MM`
    simp only [hhmmCore, minuteOk, isDig05, Bool.and_eq_true, Bool.or_eq_true,
      beq_iff_eq] at h
    obtain ⟨⟨h1, rfl⟩, h5, h9⟩ := h
    obtain ⟨_, hb1⟩ := isDigit_bounds h1
    obtain ⟨_, hb9⟩ := isDigit_bounds h9
    have h3 : c3.isDigit = true ∧ c3.toNat ≤ 53 := by
      rcases h5 with ((((h | h) | h) | h) | h) | h <;> subst h <;> decide
    refine ⟨[c1], [c3, c4], hcs, by simp, by simp, by simp [h1], by simp,
      by simp [h3.1, h9], ?_, ?_⟩ <;> simp [digitsVal] <;> omega
  · rcases rest with _ | ⟨c6, rest⟩
    · -- five characters: `HH:MM`
      simp only [hhmmCore, minuteOk, hour2Ok, isDig05, Bool.and_eq_true, Bool.or_eq_true,
        beq_iff_eq] at h
      obtain ⟨⟨h12, rfl⟩, h5, h9⟩ := h
      obtain ⟨_, hb9⟩ := isDigit_bounds h9
      have h4 : c4.isDigit = true ∧ c4.toNat ≤ 53 := by
        rcases h5 with ((((h | h) | h) | h) | h) | h <;> subst h <;> decide
      have hd1 : c1.isDigit = true ∧ c2.isDigit = true ∧ digitsVal [c1, c2] ≤ 23 := by
        rcases h12 with ⟨h1, h2⟩ | ⟨h1, h2⟩
        · obtain ⟨_, hb2⟩ := isDigit_bounds h2
          have hc1 : c1.isDigit = true ∧ c1.toNat ≤ 49 := by
            rcases h1 with h | h <;> subst h <;> decide
          exact ⟨hc1.1, h2, by simp [digitsVal]; omega⟩
        · subst h1
          have hc2 : c2.isDigit = true ∧ c2.toNat ≤ 51 := by
            rcases h2 with ((h | h) | h) | h <;> subst h <;> decide
          exact ⟨by decide, hc2.1, by simp [digitsVal]; omega⟩
      refine ⟨[c1, c2], [c4, c5], hcs, by simp, by simp, by simp [hd1.1, hd1.2.1], by simp,
        by simp [h4.1, h9], hd1.2.2, ?_⟩
      obtain ⟨_, hb4⟩ := isDigit_bounds h4.1
      simp [digitsVal]
      omega
    · -- six or more characters
      simp [hhmmCore] at h

/-- When the argument token contains no newline, failing the regex core
means `re.match` fails outright (the `$`-before-newline case cannot
apply). -/
theorem reMatchTime_eq_false {s : String} (hnl : '\n' ∉ s.data)
    (h : hhmmCore s.data = false) : reMatchTime s = false := by
  unfold reMatchTime
  rw [h]
  cases hl : s.data.getLast? with
  | none => simp
  | some c =>
    have hc : c ∈ s.data := mem_of_getLast? hl
    have hcn : ¬(c = '\n') := fun hh => hnl (hh ▸ hc)
    simp [hcn]

/-! ## Claim theorems -/

/-- C5: for every requested duration value outside [30, 86400] seconds
(a duration is requested as a digit-string argument, hence denotes a
natural number), `start_challenge` clamps it into [30, 86400] and uses
the clamped value both as the delay of the armed end-of-challenge timer
and in the recorded end time (`now + clamped`). -/
theorem start_clamps_out_of_range_duration
    (now : Nat) (chat user : Int) (theme s : String) (rest : List String) (st : BotState)
    (hd : isDigitStr s = true)
    (_hout : digitsVal s.data < 30 ∨ 86400 < digitsVal s.data) :
    30 ≤ max 30 (min (digitsVal s.data) 86400) ∧
    max 30 (min (digitsVal s.data) 86400) ≤ 86400 ∧
    (startChallenge now chat user (theme :: s :: rest) st).1.jobs =
      st.jobs ++ [⟨"end_challenge", max 30 (min (digitsVal s.data) 86400), chat,
        [("chat_id", .int chat)]⟩] ∧
    dictGet (toString chat) (startChallenge now chat user (theme :: s :: rest) st).1.challenges =
      some ⟨theme, user, [], now + max 30 (min (digitsVal s.data) 86400)⟩ := by
  have hdur : challengeDuration (theme :: s :: rest) = max 30 (min (digitsVal s.data) 86400) := by
    simp [challengeDuration, hd]
  refine ⟨le_max_left _ _, by omega, ?_, ?_⟩
  · simp [startChallenge, hdur]
  · simp [startChallenge, hdur, dictGet_dictSet_self]

/-- Witness: requesting duration "5" (below 30) arms the timer with the
clamped delay 30. -/
theorem start_clamps_out_of_range_duration_witness :
    (startChallenge 0 3 4 ["T", "5"] BotState.empty).1.jobs =
      [⟨"end_challenge", 30, 3, [("chat_id", .int 3)]⟩] := by
  have h := start_clamps_out_of_range_duration 0 3 4 "T" "5" [] BotState.empty
    (by decide) (Or.inl (by decide))
  rw [h.2.2.1]
  decide

/-- C10: with no duration argument, or a duration argument that is not a
plain non-negative digit string (such as "-5", "abc" or "3.5"), the
challenge is created with the default duration 300 s and the normal
announcement (no error reply); the [30, 86400] clamp applies exactly to
the digit-string durations. -/
theorem start_duration_default_and_clamp
    (now : Nat) (chat user : Int) (theme : String) (st : BotState) :
    (∀ s rest, isDigitStr s = false →
      startChallenge now chat user (theme :: s :: rest) st =
        ({ st with
            challenges := dictSet (toString chat) ⟨theme, user, [], now + 300⟩ st.challenges,
            jobs := st.jobs ++ [⟨"end_challenge", 300, chat, [("chat_id", .int chat)]⟩] },
         [.reply "🏆", .reply (startChallengeReply theme 300 (now + 300))])) ∧
    (startChallenge now chat user [theme] st =
      ({ st with
          challenges := dictSet (toString chat) ⟨theme, user, [], now + 300⟩ st.challenges,
          jobs := st.jobs ++ [⟨"end_challenge", 300, chat, [("chat_id", .int chat)]⟩] },
       [.reply "🏆", .reply (startChallengeReply theme 300 (now + 300))])) ∧
    (∀ s rest, isDigitStr s = true →
      challengeDuration (theme :: s :: rest) = max 30 (min (digitsVal s.data) 86400)) ∧
    isDigitStr "-5" = false ∧ isDigitStr "abc" = false ∧ isDigitStr "3.5" = false := by
  refine ⟨?_, ?_, ?_, by decide, by decide, by decide⟩
  · intro s rest hs
    have hdur : challengeDuration (theme :: s :: rest) = 300 := by simp [challengeDuration, hs]
    simp [startChallenge, hdur]
  · have hdur : challengeDuration [theme] = 300 := by simp [challengeDuration]
    simp [startChallenge, hdur]
  · intro s rest hs
    simp [challengeDuration, hs]

/-- Witness: duration argument "abc" silently yields a 300-second
challenge. -/
theorem start_duration_default_witness :
    (startChallenge 0 2 3 ["T", "abc"] BotState.empty).1.jobs =
      [⟨"end_challenge", 300, 2, [("chat_id", .int 2)]⟩] := by
  have h := (start_duration_default_and_clamp 0 2 3 "T" BotState.empty).1 "abc" [] (by decide)
  rw [h]
  decide

/-- C7: the fire time computed by `schedule_gif` for a valid wall-clock
time of day is that time today when it has not yet passed at scheduling
time, and that time tomorrow when it has already passed; the armed job's
delay realizes exactly that absolute fire time. -/
theorem schedule_fire_today_or_tomorrow
    (now h m : Nat) (hh : h ≤ 23) (hm : m ≤ 59) :
    (now ≤ now / 86400 * 86400 + h * 3600 + m * 60 →
      computeFire now h m = now / 86400 * 86400 + h * 3600 + m * 60) ∧
    (now / 86400 * 86400 + h * 3600 + m * 60 < now →
      computeFire now h m = now / 86400 * 86400 + h * 3600 + m * 60 + 86400) ∧
    now ≤ computeFire now h m ∧
    computeFire now h m % 86400 = (h * 3600 + m * 60) % 86400 ∧
    (∀ (chat user : Int) (s : String) (qargs : List String) (st : BotState),
      qargs ≠ [] → reMatchTime s = true → parseHM s = some (h, m) →
      (scheduleGif now chat user (s :: qargs) st).1.jobs =
        st.jobs ++ [⟨"send_scheduled_gif", computeFire now h m - now, chat,
          [("query", .str (String.intercalate " " qargs)), ("user_id", .int user)]⟩]) := by
  refine ⟨?_, ?_, ?_, ?_, ?_⟩
  · intro hle
    unfold computeFire
    split <;> omega
  · intro hlt
    unfold computeFire
    split <;> omega
  · unfold computeFire
    split <;> omega
  · unfold computeFire
    split <;> omega
  · intro chat user s qargs st hq hre hp
    have hlen : ¬(qargs.length + 1 < 2) := by
      have := List.length_pos.mpr hq
      omega
    simp [scheduleGif, hlen, hre, hp]

/-- Witness: "09:00" requested at 10:00 fires at 09:00 the next day;
requested at 08:00 it fires at 09:00 today. -/
theorem schedule_fire_witness :
    computeFire 36000 9 0 = 118800 ∧ computeFire 28800 9 0 = 32400 ∧
    (scheduleGif 36000 5 6 ["09:00", "rain"] BotState.empty).1.jobs =
      [⟨"send_scheduled_gif", 82800, 5, [("query", .str "rain"), ("user_id", .int 6)]⟩] := by
  have h1 := schedule_fire_today_or_tomorrow 36000 9 0 (by decide) (by decide)
  have h2 := schedule_fire_today_or_tomorrow 28800 9 0 (by decide) (by decide)
  refine ⟨?_, ?_, ?_⟩
  · rw [h1.2.1 (by decide)]
  · rw [h2.1 (by decide)]
  · have h3 := h1.2.2.2.2 5 6 "09:00" ["rain"] BotState.empty (by decide) (by decide) (by decide)
    rw [h3]
    decide

/-- C6: every schedule request whose time string is not a well-formed
24-hour time (`SpecHHMM`) is rejected with the validation-error reply,
mutating no state — no scheduled-post job is armed — and without
raising.  The newline-freedom hypothesis reflects that command argument
tokens come from whitespace-splitting the message text, so they can
never contain a newline (only such a token could sneak past the regex's
`$`, and even it would be stopped by `strptime` in the `except` branch,
still arming nothing). -/
theorem schedule_rejects_malformed_time
    (now : Nat) (chat user : Int) (s : String) (qargs : List String) (st : BotState)
    (hnl : '\n' ∉ s.data) (hbad : ¬SpecHHMM s) (hq : qargs ≠ []) :
    scheduleGif now chat user (s :: qargs) st =
      (st, [.reply "⏰",
            .reply "Invalid time format! Use HH:MM (24-hour format)\nExample: 14:30"]) := by
  have hcore : hhmmCore s.data = false := by
    cases hc : hhmmCore s.data
    · rfl
    · exact absurd (specHHMM_of_hhmmCore hc) hbad
  have hre : reMatchTime s = false := reMatchTime_eq_false hnl hcore
  have hlen : ¬(qargs.length + 1 < 2) := by
    have := List.length_pos.mpr hq
    omega
  simp [scheduleGif, hlen, hre]

/-- Witness: the malformed time string "abc" is rejected and leaves the
empty state untouched. -/
theorem schedule_rejects_malformed_time_witness :
    scheduleGif 0 1 2 ["abc", "party"] BotState.empty =
      (BotState.empty, [.reply "⏰",
        .reply "Invalid time format! Use HH:MM (24-hour format)\nExample: 14:30"]) := by
  refine schedule_rejects_malformed_time 0 1 2 "abc" ["party"] BotState.empty (by decide) ?_
    (by decide)
  rintro ⟨hs, ms, heq, hne, hlen2, hdig, hmslen, hmdig, hhv, hmv⟩
  have hd : ("abc").data = ['a', 'b', 'c'] := rfl
  rw [hd] at heq
  have hlen3 := congrArg List.length heq
  simp [hmslen] at hlen3
  exact hne hlen3

/-- C4: the timer-fired resolver — with an existing record and empty
participants it emits the "no submissions" announcement and removes the
record; with an existing record and N ≥ 1 participants it selects
exactly one winner from among the participants (the emitted message and
animation refer to that single participant entry) and removes the
record; with no record for the chat it is a silent no-op, so a second
invocation after a resolution (under the one-record-per-chat invariant)
does nothing. -/
theorem resolve_fired_behavior
    (nameOf : Int → Option String) (pick : Nat) (chat : Int) (st : BotState) :
    (dictGet (toString chat) st.challenges = none →
      endChallenge nameOf pick chat st = (st, [])) ∧
    (∀ ch, dictGet (toString chat) st.challenges = some ch → ch.participants = [] →
      endChallenge nameOf pick chat st =
        ({ st with challenges := dictDel (toString chat) st.challenges },
         [.sendMessage (.str (toString chat)) (noSubsMsg ch.theme)])) ∧
    (∀ ch, dictGet (toString chat) st.challenges = some ch → ch.participants ≠ [] →
      ∃ g, (winnerIdOf pick ch.participants, g) ∈ ch.participants ∧
        endChallenge nameOf pick chat st =
          ({ st with challenges := dictDel (toString chat) st.challenges },
           [.sendMessage (.str (toString chat))
              (winnerMsg ch.theme (winnerNameOf nameOf (winnerIdOf pick ch.participants))),
            .sendAnimation (.str (toString chat)) g
              (winnerCaption (winnerNameOf nameOf (winnerIdOf pick ch.participants)))])) ∧
    (∀ ch, dictGet (toString chat) st.challenges = some ch → AtMostOne st →
      ∀ nameOf2 pick2, endChallenge nameOf2 pick2 chat (endChallenge nameOf pick chat st).1 =
        ((endChallenge nameOf pick chat st).1, [])) := by
  have hnoop : ∀ st' : BotState, dictGet (toString chat) st'.challenges = none →
      ∀ nf pk, endChallenge nf pk chat st' = (st', []) := by
    intro st' hn nf pk
    simp [endChallenge, hn]
  have hgone : ∀ ch, dictGet (toString chat) st.challenges = some ch → AtMostOne st →
      dictGet (toString chat) (endChallenge nameOf pick chat st).1.challenges = none := by
    intro ch hsome hinv
    have hdel : dictGet (toString chat) (dictDel (toString chat) st.challenges) = none :=
      dictGet_dictDel_self (hinv (toString chat))
    by_cases hp : ch.participants.isEmpty
    · simp [endChallenge, hsome, hp, hdel]
    · simp [endChallenge, hsome, hp, hdel]
  refine ⟨fun hn => hnoop st hn nameOf pick, ?_, ?_, ?_⟩
  · intro ch hsome hp
    have hp' : ch.participants.isEmpty = true := by simp [hp]
    simp [endChallenge, hsome, hp']
  · intro ch hsome hp
    have hp' : ch.participants.isEmpty = false := by simp [List.isEmpty_iff, hp]
    have hkeys : ch.participants.map Prod.fst ≠ [] := by simp [hp]
    have hw : winnerIdOf pick ch.participants ∈ ch.participants.map Prod.fst :=
      getD_mod_mem _ _ hkeys
    obtain ⟨g, hg⟩ := dictGet_isSome_of_mem_keys hw
    refine ⟨g, mem_of_dictGet hg, ?_⟩
    simp [endChallenge, hsome, hp', hg]
  · intro ch hsome hinv nameOf2 pick2
    exact hnoop _ (hgone ch hsome hinv) nameOf2 pick2

/-- Witness: resolving chat 8's one-participant challenge sends the
winner announcement and animation for that participant and removes the
record; resolving again is a no-op, as is resolving a chat with no
record. -/
theorem resolve_fired_behavior_witness :
    (∃ g, (winnerIdOf 0 [("9", "FILE9")], g) ∈ [("9", "FILE9")] ∧
      endChallenge (fun _ => none) 0 8
          ⟨[], [], [("8", ⟨"Summer", 7, [("9", "FILE9")], 300⟩)], []⟩ =
        ({ BotState.empty with challenges := dictDel "8" [("8", ⟨"Summer", 7, [("9", "FILE9")], 300⟩)] },
         [.sendMessage (.str "8")
            (winnerMsg "Summer" (winnerNameOf (fun _ => none) (winnerIdOf 0 [("9", "FILE9")]))),
          .sendAnimation (.str "8") g
            (winnerCaption (winnerNameOf (fun _ => none) (winnerIdOf 0 [("9", "FILE9")])))])) ∧
    endChallenge (fun _ => none) 0 8 BotState.empty = (BotState.empty, []) := by
  constructor
  · have h := (resolve_fired_behavior (fun _ => none) 0 8
      ⟨[], [], [("8", ⟨"Summer", 7, [("9", "FILE9")], 300⟩)], []⟩).2.2.1
      ⟨"Summer", 7, [("9", "FILE9")], 300⟩ (by decide) (by decide)
    exact h
  · exact (resolve_fired_behavior (fun _ => none) 0 8 BotState.empty).1 (by decide)

/-- C2, counterexample: in `overwriteScenario`, challenge "A" of chat 1
was overwritten by challenge "B"; when "A"'s still-armed timer fires,
its callback — which looks the record up by chat id only — does NOT
no-op: it sends a message and changes the state (it resolves and removes
the new challenge "B"). -/
theorem abandoned_timer_fire_not_noop :
    ¬(overwriteScenarioFire.2 = [] ∧ overwriteScenarioFire.1 = overwriteScenario) := by
  intro h
  exact absurd h.1 (by decide)

/-- C2, amended: starting a new challenge does leave every previously
armed timer in place; but the abandoned timer's callback finds no record
(and no-ops, sending nothing and changing nothing) only when the chat
has no challenge record at fire time — when the chat has a record (in
particular the newly started challenge, stored under the same chat key),
the callback resolves and removes that record. -/
theorem abandoned_timer_keyed_by_chat
    (st : BotState) (chat : Int) (nameOf : Int → Option String) (pick : Nat) :
    (∀ (j : Job) now user args, j ∈ st.jobs →
      j ∈ (startChallenge now chat user args st).1.jobs) ∧
    (dictGet (toString chat) st.challenges = none →
      endChallenge nameOf pick chat st = (st, [])) ∧
    (∀ ch, dictGet (toString chat) st.challenges = some ch →
      (endChallenge nameOf pick chat st).1.challenges = dictDel (toString chat) st.challenges ∧
      (endChallenge nameOf pick chat st).2 ≠ []) := by
  refine ⟨?_, ?_, ?_⟩
  · intro j now user args hj
    cases args with
    | nil => simpa [startChallenge] using hj
    | cons theme rest =>
      simp [startChallenge]
      exact Or.inl hj
  · intro hn
    simp [endChallenge, hn]
  · intro ch hsome
    by_cases hp : ch.participants.isEmpty
    · constructor <;> simp [endChallenge, hsome, hp]
    · constructor <;> simp [endChallenge, hsome, hp]

/-- Witness: in the overwrite scenario the old timer is still among the
armed jobs after the second start, and firing the resolver on a chat
with no record is a no-op while firing it on chat 1 (which holds "B")
removes a record and emits effects. -/
theorem abandoned_timer_keyed_by_chat_witness :
    (⟨"end_challenge", 300, 1, [("chat_id", .int 1)]⟩ : Job) ∈ overwriteScenario.jobs ∧
    endChallenge (fun _ => none) 0 1 BotState.empty = (BotState.empty, []) ∧
    overwriteScenarioFire.1.challenges = dictDel "1" overwriteScenario.challenges ∧
    overwriteScenarioFire.2 ≠ [] := by
  have h1 := (abandoned_timer_keyed_by_chat (startChallenge 0 1 10 ["A"] BotState.empty).1 1
    (fun _ => none) 0).1 ⟨"end_challenge", 300, 1, [("chat_id", .int 1)]⟩ 50 11 ["B"] (by decide)
  have h2 := (abandoned_timer_keyed_by_chat BotState.empty 1 (fun _ => none) 0).2.1 (by decide)
  have h3 := (abandoned_timer_keyed_by_chat overwriteScenario 1 (fun _ => none) 0).2.2
    ⟨"B", 11, [], 350⟩ (by decide)
  exact ⟨h1, h2, h3.1, h3.2⟩

/-- C9: the one-record-per-chat invariant holds initially and is
preserved by every engine operation (start, submit, cancel, timer-fired
resolve); and starting a challenge — also while one is already active —
results in exactly one record for that chat, hence any operation
sequence keeps at most one record per chat at every instant. -/
theorem at_most_one_challenge_per_chat
    (st : BotState) (hst : AtMostOne st) :
    AtMostOne BotState.empty ∧
    (∀ now chat user args, AtMostOne (startChallenge now chat user args st).1) ∧
    (∀ chat user fid, AtMostOne (submitGif chat user fid st).1) ∧
    (∀ adm chat user, AtMostOne (cancelChallenge adm chat user st).1) ∧
    (∀ nameOf pick chat, AtMostOne (endChallenge nameOf pick chat st).1) ∧
    (∀ now chat user theme rest,
      countKey (toString chat) (startChallenge now chat user (theme :: rest) st).1.challenges
        = 1) := by
  have hset : ∀ (k : String) (v : ChallengeRec) (c : String),
      countKey c (dictSet k v st.challenges) ≤ 1 := by
    intro k v c
    by_cases hck : c = k
    · subst hck
      rw [countKey_dictSet_self]
      have := hst c
      omega
    · rw [countKey_dictSet_other hck]
      exact hst c
  have hdel : ∀ (k c : String), countKey c (dictDel k st.challenges) ≤ 1 := fun k c =>
    le_trans (countKey_dictDel_le c k _) (hst c)
  refine ⟨?_, ?_, ?_, ?_, ?_, ?_⟩
  · intro c
    simp [BotState.empty, countKey]
  · intro now chat user args
    cases args with
    | nil => simpa [startChallenge, AtMostOne] using hst
    | cons theme rest =>
      intro c
      simpa [startChallenge] using hset _ _ c
  · intro chat user fid c
    cases hg : dictGet (toString chat) st.challenges with
    | none => simpa [submitGif, hg] using hst c
    | some ch =>
      cases fid with
      | none => simpa [submitGif, hg] using hst c
      | some f => simpa [submitGif, hg] using hset _ _ c
  · intro adm chat user c
    cases hg : dictGet (toString chat) st.challenges with
    | none => simpa [cancelChallenge, hg] using hst c
    | some ch =>
      by_cases hforb : (user != ch.creator && !adm) = true
      · simpa [cancelChallenge, hg, hforb] using hst c
      · simpa [cancelChallenge, hg, hforb] using hdel _ c
  · intro nameOf pick chat c
    cases hg : dictGet (toString chat) st.challenges with
    | none => simpa [endChallenge, hg] using hst c
    | some ch =>
      by_cases hp : ch.participants.isEmpty
      · simpa [endChallenge, hg, hp] using hdel _ c
      · simpa [endChallenge, hg, hp] using hdel _ c
  · intro now chat user theme rest
    have h1 : countKey (toString chat)
        (dictSet (toString chat) ⟨theme, user, [], now + challengeDuration (theme :: rest)⟩
          st.challenges) = 1 := by
      rw [countKey_dictSet_self]
      have := hst (toString chat)
      omega
    simpa [startChallenge] using h1

/-- Witness: starting a second challenge in chat 5 on a state that
already has one leaves exactly one record for chat 5. -/
theorem at_most_one_challenge_per_chat_witness :
    countKey (toString (5 : Int))
      (startChallenge 40 5 2 ["U"] (startChallenge 0 5 1 ["T"] BotState.empty).1).1.challenges
      = 1 := by
  have h0 : AtMostOne (startChallenge 0 5 1 ["T"] BotState.empty).1 := by
    intro c
    simp [startChallenge, BotState.empty, dictSet, countKey, List.filter]
    split <;> simp
  exact (at_most_one_challenge_per_chat _ h0).2.2.2.2.2 40 5 2 "U" []

/-- C1: a cancel by the creator does delete the challenge record and
reply success, but it does NOT cancel the pending end-of-challenge
timer: `cancel_challenge` compares the job data's `chat_id` (stored as
an `int` by `start_challenge`) with the *string* chat id, which in
Python is never equal, so no job is removed.  The double-resolution is
nevertheless avoided only because the fired callback finds no record and
no-ops (last conjunct). -/
theorem cancel_by_creator_leaves_timer_armed :
    cancelScenarioAfter.2 = [.reply "❌", .reply "✅ Challenge canceled!"] ∧
    cancelScenarioAfter.1.challenges = [] ∧
    cancelScenarioAfter.1.jobs = [⟨"end_challenge", 300, 42, [("chat_id", .int 42)]⟩] ∧
    endChallenge (fun _ => none) 0 42 cancelScenarioAfter.1 = (cancelScenarioAfter.1, []) := by
  exact ⟨by decide, by decide, by decide, by decide⟩

/-- C3: `save_data` hands `json.dump` a dict whose challenge records
hold a raw `datetime` under `"end_time"`; `json.dump` raises
`TypeError` on it, `save_data` swallows the exception, and no valid
snapshot is produced — so whenever any challenge record exists, the
save/load round-trip claimed for `endTime` cannot happen at all. -/
theorem save_snapshot_fails_with_challenge
    (st : BotState) (k : String) (c : ChallengeRec) (h : (k, c) ∈ st.challenges) :
    saveData st = none := by
  have hj : jsonable (challengeToPy c) = false := by
    simp [challengeToPy, jsonable, jsonableDict]
  have hmem : (k, challengeToPy c) ∈ st.challenges.map (fun p => (p.1, challengeToPy p.2)) :=
    List.mem_map.mpr ⟨(k, c), h, rfl⟩
  have hdict : jsonableDict (st.challenges.map fun p => (p.1, challengeToPy p.2)) = false := by
    cases hd : jsonableDict (st.challenges.map fun p => (p.1, challengeToPy p.2)) with
    | false => rfl
    | true => exact absurd (jsonableDict_mem hd hmem) (by simp [hj])
  simp [saveData, saveDataValue, jsonable, jsonableDict, hdict]

/-- Witness: the state right after starting a challenge cannot be
snapshotted. -/
theorem save_snapshot_fails_witness :
    saveData (startChallenge 0 1 5 ["Summer"] BotState.empty).1 = none :=
  save_snapshot_fails_with_challenge _ "1" ⟨"Summer", 5, [], 300⟩ (by decide)

/-- C8: when a scheduled post fires, the stored query is resolved
against the search capability available at fire time (`schedule_gif`
stores only the query string in the job data and never calls search);
an empty result yields the "couldn't find" notice with the requester's
usage counter untouched (state unchanged), a non-empty result sends the
first animation and increments the requester's counter. -/
theorem scheduled_fire_resolves_query_at_fire_time
    (search : String → Bool → List String) (d : Nat) (chat user : Int) (q : String)
    (st : BotState) :
    (search q (safeModeOf st chat) = [] →
      sendScheduledGif search ⟨"send_scheduled_gif", d, chat,
          [("query", .str q), ("user_id", .int user)]⟩ st =
        (st, [.sendMessage (.int chat) ("⚠️ Couldn't find a GIF for '" ++ q ++ "'.")])) ∧
    (∀ g gs, search q (safeModeOf st chat) = g :: gs →
      (sendScheduledGif search ⟨"send_scheduled_gif", d, chat,
          [("query", .str q), ("user_id", .int user)]⟩ st).2 =
        [.sendAnimation (.int chat) g ("⏰ Scheduled GIF for '" ++ q ++ "'")] ∧
      (sendScheduledGif search ⟨"send_scheduled_gif", d, chat,
          [("query", .str q), ("user_id", .int user)]⟩ st).1.userStats =
        dictSet (toString user) ((dictGet (toString user) st.userStats).getD 0 + 1)
          st.userStats ∧
      (sendScheduledGif search ⟨"send_scheduled_gif", d, chat,
          [("query", .str q), ("user_id", .int user)]⟩ st).1.challenges = st.challenges ∧
      (sendScheduledGif search ⟨"send_scheduled_gif", d, chat,
          [("query", .str q), ("user_id", .int user)]⟩ st).1.jobs = st.jobs) := by
  have hqd : dictGet "query" [("query", PyScalar.str q), ("user_id", PyScalar.int user)] =
      some (.str q) := rfl
  have hud : dictGet "user_id" [("query", PyScalar.str q), ("user_id", PyScalar.int user)] =
      some (.int user) := rfl
  constructor
  · intro hs
    simp [sendScheduledGif, hqd, hud, hs]
  · intro g gs hs
    refine ⟨?_, ?_, ?_, ?_⟩ <;> simp [sendScheduledGif, hqd, hud, hs]

/-- Witness: firing the "rain" post with an empty-result capability
emits the notice and credits nothing; with results, it sends the first
animation and credits user 9. -/
theorem scheduled_fire_witness :
    sendScheduledGif (fun _ _ => []) ⟨"send_scheduled_gif", 60, 5,
        [("query", .str "rain"), ("user_id", .int 9)]⟩ BotState.empty =
      (BotState.empty, [.sendMessage (.int 5) "⚠️ Couldn't find a GIF for 'rain'."]) ∧
    (sendScheduledGif (fun _ _ => ["g1", "g2"]) ⟨"send_scheduled_gif", 60, 5,
        [("query", .str "rain"), ("user_id", .int 9)]⟩ BotState.empty).1.userStats =
      [("9", 1)] := by
  constructor
  · have h := (scheduled_fire_resolves_query_at_fire_time (fun _ _ => []) 60 5 9 "rain"
      BotState.empty).1 rfl
    rw [h]
    decide
  · have h := (scheduled_fire_resolves_query_at_fire_time (fun _ _ => ["g1", "g2"]) 60 5 9 "rain"
      BotState.empty).2 "g1" ["g2"] rfl
    rw [h.2.1]
    decide

end GifBot
